import Mathlib

/-!
# A verification development for `evcape.py`

`evcape` remaps short keystroke gestures on physical keyboards into synthetic
keystrokes.  This file gives a shallow embedding of the program: the rule
parser (`Rule.from_string` / `Rule.parse_sequence`), the sliding-window
gesture matcher (the body of `main`'s event loop), the keyboard-monitor
device registry (`KeyboardMonitor`), and the device-read error handling
(`read_input_device_events`), together with theorems about them.

Python strings are modelled as Lean `String`s; the string operations the
program uses (`str.split`, `str.partition`, `str.upper`) are implemented
structurally over the character list so that all definitions evaluate.
Timestamps (Python floats) are modelled as rationals.
-/

namespace Evcape

/-! ## Python string primitives -/

/-- Helper for `pySplit`: splits a character list at every occurrence of
`sep`, like Python `str.split(sep)` for a one-character separator. -/
def splitCharAux (sep : Char) : List Char → List Char → List (List Char)
  | [], acc => [acc.reverse]
  | c :: rest, acc =>
      if c = sep then acc.reverse :: splitCharAux sep rest []
      else splitCharAux sep rest (c :: acc)

/-- Python `s.split(sep)` for a one-character separator.
`"".split(",") = [""]`, and separators at the ends yield empty chunks,
exactly as in Python. -/
def pySplit (s : String) (sep : Char) : List String :=
  (splitCharAux sep s.data []).map String.mk

/-- Helper for `pyPartition`: text before / after the first occurrence of
`sep` (the whole string and `""` when `sep` does not occur). -/
def partitionCharAux (sep : Char) : List Char → List Char → List Char × List Char
  | [], acc => (acc.reverse, [])
  | c :: rest, acc =>
      if c = sep then (acc.reverse, rest)
      else partitionCharAux sep rest (c :: acc)

/-- Python `s.partition(sep)` for a one-character separator, keeping the
parts before and after the first occurrence of `sep` (the program never
inspects the separator component of the triple). -/
def pyPartition (s : String) (sep : Char) : String × String :=
  let (before, after) := partitionCharAux sep s.data []
  (String.mk before, String.mk after)

/-- Python `s.upper()` (the key names used by the program are ASCII). -/
def pyUpper (s : String) : String :=
  String.mk (s.data.map Char.toUpper)

/-! ## Key-event value tables (`evcape.py` lines 21-27) -/

/-- `KEY_EVENT_VALUE_TO_ACTION = {0: "release", 1: "press"}`. -/
def KEY_EVENT_VALUE_TO_ACTION : List (Nat × String) :=
  [(0, "release"), (1, "press")]

/-- `ACTION_TO_KEY_EVENT_VALUE`, the inverse mapping, built from
`KEY_EVENT_VALUE_TO_ACTION` exactly as in the source. -/
def ACTION_TO_KEY_EVENT_VALUE : List (String × Nat) :=
  KEY_EVENT_VALUE_TO_ACTION.map (fun p => (p.2, p.1))

/-- Models the fixed `evdev.ecodes` attribute table of `KEY_*` constants
(an external, OS-defined symbolic-name-to-code mapping), restricted to the
key names appearing in this development.  The numeric values are the real
Linux input-event codes. -/
def ecodesTable : List (String × Nat) :=
  [("KEY_ESC", 1), ("KEY_ENTER", 28), ("KEY_LEFTCTRL", 29),
   ("KEY_A", 30), ("KEY_LEFTSHIFT", 42), ("KEY_CAPSLOCK", 58)]

/-- `getattr(evdev.ecodes, name)` for `KEY_*` names: `none` models the
`AttributeError` raised for an unknown attribute. -/
def getattrEcodes (name : String) : Option Nat :=
  ecodesTable.lookup name

/-! ## The rule model (`Rule`, lines 205-247) -/

/-- `Rule = namedtuple("Rule", ["patterns", "actions"])`: both fields are
lists of `(value, code)` pairs, `value` being 1 for press and 0 for
release, `code` the key code. -/
structure Rule where
  patterns : List (Nat × Nat)
  actions : List (Nat × Nat)
deriving DecidableEq

/-- The rule-parsing failure, carrying the offending token.
`unknownAction` models the `KeyError` from `ACTION_TO_KEY_EVENT_VALUE[action]`,
`unknownKey` the `AttributeError` from `getattr(evdev.ecodes, ...)`. -/
inductive RuleSyntaxError where
  | unknownAction (token : String)
  | unknownKey (token : String)
deriving DecidableEq

deriving instance DecidableEq for Except

/-- One iteration of the loop in `Rule.parse_sequence`: partition the chunk
at `":"`, look up the action value, then resolve `KEY_<upper(key)>`. -/
def parseChunk (chunk : String) : Except RuleSyntaxError (Nat × Nat) :=
  let (action, key) := pyPartition chunk ':'
  match ACTION_TO_KEY_EVENT_VALUE.lookup action with
  | none => .error (.unknownAction action)
  | some value =>
      match getattrEcodes ("KEY_" ++ pyUpper key) with
      | none => .error (.unknownKey key)
      | some code => .ok (value, code)

/-- The accumulation loop of `Rule.parse_sequence` over the comma chunks:
the first failing chunk's exception propagates. -/
def parseChunks : List String → Except RuleSyntaxError (List (Nat × Nat))
  | [] => .ok []
  | c :: rest =>
      match parseChunk c with
      | .error e => .error e
      | .ok p =>
          match parseChunks rest with
          | .error e => .error e
          | .ok ps => .ok (p :: ps)

/-- `Rule.parse_sequence` (lines 239-247). -/
def Rule.parse_sequence (s : String) : Except RuleSyntaxError (List (Nat × Nat)) :=
  parseChunks (pySplit s ',')

/-- `Rule.from_string` (lines 209-237): partition at `"="` and parse the
two halves. -/
def Rule.from_string (s : String) : Except RuleSyntaxError Rule :=
  let (patterns, actions) := pyPartition s '='
  match Rule.parse_sequence patterns with
  | .error e => .error e
  | .ok ps =>
      match Rule.parse_sequence actions with
      | .error e => .error e
      | .ok acts => .ok ⟨ps, acts⟩

/-- Whether parsing succeeded (no exception was raised). -/
def exceptIsOk {ε : Type u} {α : Type v} : Except ε α → Bool
  | .ok _ => true
  | .error _ => false

/-- The action text of a chunk: what stands before the first `":"`. -/
def chunkAction (chunk : String) : String := (pyPartition chunk ':').1

/-- The key text of a chunk: what stands after the first `":"`. -/
def chunkKey (chunk : String) : String := (pyPartition chunk ':').2

/-- The key text of a chunk resolves: `KEY_<upper(key)>` is a known
`evdev.ecodes` attribute. -/
def chunkKeyResolves (chunk : String) : Prop :=
  (getattrEcodes ("KEY_" ++ pyUpper (chunkKey chunk))).isSome = true

/-- A chunk parses: its action text is exactly `"press"` or `"release"`
and its key text resolves. -/
def validChunk (chunk : String) : Prop :=
  (chunkAction chunk = "press" ∨ chunkAction chunk = "release") ∧
  chunkKeyResolves chunk

instance (chunk : String) : Decidable (validChunk chunk) := by
  unfold validChunk chunkKeyResolves
  infer_instance

/-- All the `action:key` tokens of a rule string, in parse order: the
comma chunks of the pattern half followed by those of the action half. -/
def ruleChunks (s : String) : List String :=
  pySplit (pyPartition s '=').1 ',' ++ pySplit (pyPartition s '=').2 ','

/-- Tokenwise comparison of two chunks: equal action text, and key text
equal up to letter case. -/
def chunkKeyEquiv (c d : String) : Bool :=
  chunkAction c == chunkAction d && pyUpper (chunkKey c) == pyUpper (chunkKey d)

/-- Tokenwise comparison of two chunk lists. -/
def seqKeyEquiv : List String → List String → Bool
  | [], [] => true
  | c :: cs, d :: ds => chunkKeyEquiv c d && seqKeyEquiv cs ds
  | _, _ => false

/-- Two rule strings that agree tokenwise except possibly in the letter
case of their key names. -/
def ruleKeyEquiv (s t : String) : Prop :=
  seqKeyEquiv (pySplit (pyPartition s '=').1 ',')
    (pySplit (pyPartition t '=').1 ',') = true ∧
  seqKeyEquiv (pySplit (pyPartition s '=').2 ',')
    (pySplit (pyPartition t '=').2 ',') = true

instance (s t : String) : Decidable (ruleKeyEquiv s t) := by
  unfold ruleKeyEquiv
  infer_instance

/-! ## The gesture matcher (the body of `main`, lines 45-90) -/

/-- An evdev input event as consumed by the loop: `(type, code, value)`
plus the `event.timestamp()` value (seconds, modelled as a rational). -/
structure InputEvent where
  type : Nat
  code : Nat
  value : Nat
  timestamp : ℚ
deriving DecidableEq

/-- `evdev.ecodes.EV_KEY`. -/
def EV_KEY : Nat := 1

/-- What `main` sends to the uinput device: `uinput.write(EV_KEY, code,
value)` calls and `uinput.syn()` synchronization barriers. -/
inductive OutEvent where
  | write (code value : Nat)
  | syn
deriving DecidableEq

/-- `dict.setdefault(key, []).append(rule)` on an association list whose
keys are the optional last pattern element. -/
def setdefaultAppend :
    List (Option (Nat × Nat) × List Rule) → Option (Nat × Nat) → Rule →
      List (Option (Nat × Nat) × List Rule)
  | [], k, r => [(k, [r])]
  | (k', rs) :: m, k, r =>
      if k' = k then (k', rs ++ [r]) :: m
      else (k', rs) :: setdefaultAppend m k r

/-- Dictionary lookup on the association list; `[]` models both a missing
key and `dict.get` returning `None` (the loop treats them identically via
`if not possibly_matching_rules`). -/
def lookupBucket :
    List (Option (Nat × Nat) × List Rule) → Option (Nat × Nat) → List Rule
  | [], _ => []
  | (k', rs) :: m, k => if k' = k then rs else lookupBucket m k

/-- `rules_by_last_event` (lines 45-48): group rules by the last element of
their pattern, preserving declaration order inside each bucket. -/
def buildIndex (rules : List Rule) : List (Option (Nat × Nat) × List Rule) :=
  rules.foldl (fun m r => setdefaultAppend m r.patterns.getLast? r) []

/-- `collections.deque(maxlen=n).append`: keep the most recent `maxlen`
elements, evicting the oldest when full. -/
def pushWindow (maxlen : Nat) (buffer : List (Nat × Nat)) (x : Nat × Nat) :
    List (Nat × Nat) :=
  let b := buffer ++ [x]
  b.drop (b.length - maxlen)

/-- Python `list(buffer)[-k:]` (with `-0` meaning the whole list, as in the
source where `offset = -len(rule.patterns)`). -/
def pyTailSlice (l : List (Nat × Nat)) (k : Nat) : List (Nat × Nat) :=
  if k = 0 then l else l.drop (l.length - k)

/-- The emission for one matched rule (lines 88-90): one
`uinput.write(EV_KEY, code, value)` per action, in order, then one
`uinput.syn()` synchronization barrier. -/
def emitRule (rule : Rule) : List OutEvent :=
  (rule.actions.map fun a => OutEvent.write a.2 a.1) ++ [OutEvent.syn]

/-- The per-rule body of the matching loop (lines 83-90): compare the
trailing slice of the buffer with the rule's pattern; on a match, emit the
rule's actions followed by a synchronization barrier. -/
def fireRule (buffer : List (Nat × Nat)) (rule : Rule) : List OutEvent :=
  let buffer_slice := pyTailSlice buffer rule.patterns.length
  if rule.patterns = buffer_slice then emitRule rule
  else []

/-- The matcher's static configuration: the timeout in seconds, the window
capacity, and the rule index. -/
structure MatcherConfig where
  timeout : ℚ
  windowSize : Nat
  index : List (Option (Nat × Nat) × List Rule)

/-- How `main` builds the configuration: `timeout = args.timeout / 1000`
(milliseconds to seconds), `window_size = max(len(rule.patterns) for rule
in rules)` (the fold equals Python's `max` on the nonempty rule lists
`main` asserts), and `rules_by_last_event`. -/
def mkMatcherConfig (timeoutMs : Nat) (rules : List Rule) : MatcherConfig :=
  { timeout := (timeoutMs : ℚ) / 1000
    windowSize := (rules.map fun r => r.patterns.length).foldl max 0
    index := buildIndex rules }

/-- The loop's mutable state: the deque `buffer` (newest element last) and
`previous_event_timestamp`. -/
structure MatcherState where
  buffer : List (Nat × Nat)
  prevTs : ℚ
deriving DecidableEq

/-- The state on entry to the loop: empty buffer,
`previous_event_timestamp = 0.0` (line 71). -/
def initialState : MatcherState := ⟨[], 0⟩

/-- One iteration of `main`'s event loop (lines 73-90) for one incoming
key event: append to the buffer, compute the timestamp delta, skip
evaluation when `ts_diff >= timeout`, otherwise fire every candidate rule
whose pattern matches the trailing window. -/
def step (cfg : MatcherConfig) (st : MatcherState) (ev : InputEvent) :
    MatcherState × List OutEvent :=
  let lookup_key := (ev.value, ev.code)
  let buffer := pushWindow cfg.windowSize st.buffer lookup_key
  let ts_diff := ev.timestamp - st.prevTs
  let st' : MatcherState := ⟨buffer, ev.timestamp⟩
  if cfg.timeout ≤ ts_diff then (st', [])
  else
    let candidates := lookupBucket cfg.index (some lookup_key)
    (st', candidates.flatMap (fireRule buffer))

/-- Run the event loop over a list of incoming key events, collecting the
emitted output events in order. -/
def run (cfg : MatcherConfig) : MatcherState → List InputEvent →
    MatcherState × List OutEvent
  | st, [] => (st, [])
  | st, ev :: evs =>
      let (st', out) := step cfg st ev
      let (st'', out') := run cfg st' evs
      (st'', out ++ out')

/-! ## The keyboard monitor (`KeyboardMonitor`, lines 93-183) -/

/-- A udev device as the monitor sees it: the `ID_INPUT_KEYBOARD` property
(if present), the `DEVNAME` property (if present), and the notification
action string (`"add"`, `"remove"`, ...). -/
structure UdevDevice where
  id_input_keyboard : Option String
  devname : Option String
  action : String

/-- `udev_keyboard_device_name` (lines 196-202): `None` unless the device
is flagged as a keyboard and has a `DEVNAME` property. -/
def udev_keyboard_device_name (d : UdevDevice) : Option String :=
  if d.id_input_keyboard ≠ some "1" then none
  else d.devname

/-- The monitor's device registry: the paths of the `evdev.InputDevice`
objects currently registered with the selector under `data="keyboard"`
(the udev monitor registration is not part of this set).  Duplicate paths
are possible in principle (each registration is a fresh object), so this
is a list. -/
structure MonitorState where
  monitored : List String
deriving DecidableEq

/-- `KeyboardMonitor.add_keyboard` (lines 122-133): ignored devices are
skipped; `openFails name = true` models `evdev.InputDevice(name)` raising
`OSError`, which is logged and swallowed (the device is not added);
otherwise the device is registered. -/
def add_keyboard (ignored_devices : List String) (openFails : String → Bool)
    (st : MonitorState) (device_name : String) : MonitorState :=
  if device_name ∈ ignored_devices then st
  else if openFails device_name then st
  else ⟨st.monitored ++ [device_name]⟩

/-- The `break` after the first matching unregistration in
`remove_keyboard`: drop the first occurrence only. -/
def removeFirst : List String → String → List String
  | [], _ => []
  | p :: rest, name => if p = name then rest else p :: removeFirst rest name

/-- `KeyboardMonitor.remove_keyboard` (lines 135-144): unregister the
first registered input device whose path equals `device_name`. -/
def remove_keyboard (st : MonitorState) (device_name : String) : MonitorState :=
  ⟨removeFirst st.monitored device_name⟩

/-- The body of the enumeration loop in
`KeyboardMonitor.add_existing_keyboards` (lines 117-120): add the device
when it has a keyboard device name. -/
def scanDevice (ignored_devices : List String) (openFails : String → Bool)
    (st : MonitorState) (d : UdevDevice) : MonitorState :=
  match udev_keyboard_device_name d with
  | some name => add_keyboard ignored_devices openFails st name
  | none => st

/-- `KeyboardMonitor.add_existing_keyboards` (lines 113-120): for each
enumerated device with a keyboard device name, call `add_keyboard`. -/
def add_existing_keyboards (ignored_devices : List String)
    (openFails : String → Bool) (st : MonitorState) (scan : List UdevDevice) :
    MonitorState :=
  scan.foldl (scanDevice ignored_devices openFails) st

/-- `KeyboardMonitor.__init__` (lines 94-100): start with no input devices
registered, then add the keyboards present at startup. -/
def initKeyboardMonitor (ignored_devices : List String)
    (openFails : String → Bool) (scan : List UdevDevice) : MonitorState :=
  add_existing_keyboards ignored_devices openFails ⟨[]⟩ scan

/-- The udev branch of `KeyboardMonitor.__iter__` (lines 161-170) for one
polled device: classify it, then dispatch on the notification action. -/
def handleUdevDevice (ignored_devices : List String)
    (openFails : String → Bool) (st : MonitorState) (d : UdevDevice) :
    MonitorState :=
  match udev_keyboard_device_name d with
  | none => st
  | some name =>
      if d.action = "add" then add_keyboard ignored_devices openFails st name
      else if d.action = "remove" then remove_keyboard st name
      else st

/-- Draining a sequence of hotplug notifications in delivery order. -/
def processUdevNotifications (ignored_devices : List String)
    (openFails : String → Bool) (st : MonitorState) (ds : List UdevDevice) :
    MonitorState :=
  ds.foldl (handleUdevDevice ignored_devices openFails) st

/-! ## Device reads (`read_input_device_events`, lines 186-193) -/

/-- `errno.ENODEV` on Linux. -/
def ENODEV : Nat := 19

/-- `read_input_device_events`: `events` are the events yielded before the
read either finished (`failure = none`) or raised `OSError` with the given
`errno`.  An `ENODEV` failure is swallowed (the events already yielded
stand); any other failure propagates. -/
def read_input_device_events (events : List InputEvent) (failure : Option Nat) :
    Except Nat (List InputEvent) :=
  match failure with
  | none => .ok events
  | some e => if e = ENODEV then .ok events else .error e

/-- The per-event filter of the keyboard branch of
`KeyboardMonitor.__iter__` (lines 156-159): keep only `EV_KEY` events
whose value is a known action (dropping e.g. key-repeat events). -/
def filterKeyEvents (events : List InputEvent) : List InputEvent :=
  events.filter fun ev =>
    ev.type == EV_KEY && (KEY_EVENT_VALUE_TO_ACTION.lookup ev.value).isSome

/-- The keyboard branch of `KeyboardMonitor.__iter__` (lines 153-160) for
one ready device: yield the filtered events from
`read_input_device_events`.  The branch never touches the selector
registrations, so the monitor state is returned unchanged; a non-`ENODEV`
read failure propagates out of the loop. -/
def handleKeyboardReady (st : MonitorState) (events : List InputEvent)
    (failure : Option Nat) : Except Nat (MonitorState × List InputEvent) :=
  (read_input_device_events events failure).map fun evs =>
    (st, filterKeyEvents evs)

/-! ## Lemmas about the matcher step -/

theorem step_of_timeout (cfg : MatcherConfig) (st : MatcherState) (ev : InputEvent)
    (h : cfg.timeout ≤ ev.timestamp - st.prevTs) :
    step cfg st ev =
      (⟨pushWindow cfg.windowSize st.buffer (ev.value, ev.code), ev.timestamp⟩, []) := by
  simp only [step]
  rw [if_pos h]

theorem step_of_fast (cfg : MatcherConfig) (st : MatcherState) (ev : InputEvent)
    (h : ev.timestamp - st.prevTs < cfg.timeout) :
    step cfg st ev =
      (⟨pushWindow cfg.windowSize st.buffer (ev.value, ev.code), ev.timestamp⟩,
        (lookupBucket cfg.index (some (ev.value, ev.code))).flatMap
          (fireRule (pushWindow cfg.windowSize st.buffer (ev.value, ev.code)))) := by
  simp only [step]
  rw [if_neg (not_le.mpr h)]

theorem lookupBucket_setdefaultAppend (m : List (Option (Nat × Nat) × List Rule))
    (k' : Option (Nat × Nat)) (r : Rule) (k : Option (Nat × Nat)) :
    lookupBucket (setdefaultAppend m k' r) k =
      if k' = k then lookupBucket m k ++ [r] else lookupBucket m k := by
  induction m with
  | nil =>
      by_cases h : k' = k <;> simp [setdefaultAppend, lookupBucket, h]
  | cons p m ih =>
      obtain ⟨k'', rs⟩ := p
      by_cases h1 : k'' = k'
      · subst h1
        by_cases h2 : k'' = k
        · subst h2
          simp [setdefaultAppend, lookupBucket]
        · simp [setdefaultAppend, lookupBucket, h2]
      · by_cases h2 : k'' = k
        · subst h2
          have h3 : ¬k' = k'' := fun hh => h1 hh.symm
          simp [setdefaultAppend, lookupBucket, h1, h3]
        · simp [setdefaultAppend, lookupBucket, h1, h2, ih]

theorem lookupBucket_foldl (rules : List Rule)
    (m : List (Option (Nat × Nat) × List Rule)) (k : Option (Nat × Nat)) :
    lookupBucket (rules.foldl (fun m r => setdefaultAppend m r.patterns.getLast? r) m) k =
      lookupBucket m k ++ (rules.filter fun r => r.patterns.getLast? == k) := by
  induction rules generalizing m with
  | nil => simp
  | cons r rules ih =>
      rw [List.foldl_cons, ih, lookupBucket_setdefaultAppend, List.filter_cons]
      by_cases h : r.patterns.getLast? = k <;> simp [h]

theorem lookupBucket_buildIndex (rules : List Rule) (k : Option (Nat × Nat)) :
    lookupBucket (buildIndex rules) k =
      rules.filter fun r => r.patterns.getLast? == k := by
  rw [buildIndex, lookupBucket_foldl]
  rfl

theorem flatMap_fireRule (b : List (Nat × Nat)) (l : List Rule) :
    l.flatMap (fireRule b) =
      (l.filter fun r => r.patterns == pyTailSlice b r.patterns.length).flatMap emitRule := by
  induction l with
  | nil => rfl
  | cons r l ih =>
      rw [List.flatMap_cons, List.filter_cons, ih]
      by_cases h : r.patterns = pyTailSlice b r.patterns.length
      · have hb : (r.patterns == pyTailSlice b r.patterns.length) = true :=
          beq_iff_eq.mpr h
        simp only [fireRule]
        rw [if_pos h, hb]
        simp
      · have hb : (r.patterns == pyTailSlice b r.patterns.length) = false :=
          beq_eq_false_iff_ne.mpr h
        simp only [fireRule]
        rw [if_neg h, hb]
        simp

/-- C1: an event whose timestamp delta to the previous event reaches the
timeout is still appended to the sliding window (with deque eviction), but
produces no rule evaluation and no emission. -/
theorem slow_event_updates_window_without_firing (cfg : MatcherConfig)
    (st : MatcherState) (ev : InputEvent)
    (h : cfg.timeout ≤ ev.timestamp - st.prevTs) :
    step cfg st ev =
      (⟨pushWindow cfg.windowSize st.buffer (ev.value, ev.code), ev.timestamp⟩, []) :=
  step_of_timeout cfg st ev h

/-- Witness for C1: a concrete slow event (delta 3 s, timeout 1 s) is
appended to the window and nothing is emitted. -/
theorem slow_event_updates_window_without_firing_witness :
    step ⟨1, 2, []⟩ ⟨[], 0⟩ ⟨EV_KEY, 29, 1, 3⟩ = (⟨[(1, 29)], 3⟩, []) :=
  (slow_event_updates_window_without_firing ⟨1, 2, []⟩ ⟨[], 0⟩ ⟨EV_KEY, 29, 1, 3⟩
    (by norm_num)).trans rfl

/-- C3: for an event inside the timeout, the emitted output is exactly the
concatenation, in rule-declaration order, of the emissions of every rule
whose pattern ends with the event's `(value, code)` pair and whose whole
pattern equals the trailing slice of the updated window; matching is not
mutually exclusive. -/
theorem all_matching_rules_fire (timeoutMs : Nat) (rules : List Rule)
    (st : MatcherState) (ev : InputEvent)
    (h : ev.timestamp - st.prevTs < (mkMatcherConfig timeoutMs rules).timeout) :
    (step (mkMatcherConfig timeoutMs rules) st ev).2 =
      (rules.filter fun r =>
          r.patterns.getLast? == some (ev.value, ev.code) &&
          r.patterns ==
            pyTailSlice
              (pushWindow (mkMatcherConfig timeoutMs rules).windowSize st.buffer
                (ev.value, ev.code))
              r.patterns.length).flatMap
        emitRule := by
  rw [step_of_fast _ _ _ h]
  show ((lookupBucket (mkMatcherConfig timeoutMs rules).index _).flatMap _) = _
  have hidx : (mkMatcherConfig timeoutMs rules).index = buildIndex rules := rfl
  rw [hidx, lookupBucket_buildIndex, flatMap_fireRule, List.filter_filter]
  refine congrArg (List.flatMap · emitRule) (List.filter_congr fun r _ => ?_)
  exact Bool.and_comm _ _

/-- Witness for C3: two rules sharing the final element `release(leftctrl)`
(a two-element pattern `press ctrl, release ctrl` and a one-element pattern
`release ctrl`) both match the same release event; both emissions appear,
in rule-declaration order. -/
theorem all_matching_rules_fire_witness :
    (step
        (mkMatcherConfig 1000
          [⟨[(1, 29), (0, 29)], [(1, 1), (0, 1)]⟩, ⟨[(0, 29)], [(1, 30)]⟩])
        ⟨[(1, 29)], 0⟩ ⟨EV_KEY, 29, 0, 1/100⟩).2 =
      [OutEvent.write 1 1, OutEvent.write 1 0, OutEvent.syn,
       OutEvent.write 30 1, OutEvent.syn] := by
  rw [all_matching_rules_fire 1000
    [⟨[(1, 29), (0, 29)], [(1, 1), (0, 1)]⟩, ⟨[(0, 29)], [(1, 30)]⟩]
    ⟨[(1, 29)], 0⟩ ⟨EV_KEY, 29, 0, 1/100⟩
    (by norm_num [mkMatcherConfig])]
  decide

/-- C9: a rule whose pattern is longer than the current window contents
never matches: the trailing slice is the whole (shorter) buffer, the
equality test fails on length, and the rule emits nothing. -/
theorem insufficient_history_no_match (rule : Rule) (buffer : List (Nat × Nat))
    (h : buffer.length < rule.patterns.length) :
    (pyTailSlice buffer rule.patterns.length).length < rule.patterns.length ∧
    fireRule buffer rule = [] := by
  have hk : rule.patterns.length ≠ 0 := by omega
  have hs : pyTailSlice buffer rule.patterns.length = buffer := by
    rw [pyTailSlice, if_neg hk]
    have h0 : buffer.length - rule.patterns.length = 0 := by omega
    rw [h0, List.drop_zero]
  refine ⟨by rw [hs]; exact h, ?_⟩
  have hne : rule.patterns ≠ pyTailSlice buffer rule.patterns.length := by
    rw [hs]
    intro he
    rw [he] at h
    exact absurd h (lt_irrefl _)
  simp [fireRule, hne]

/-- Witness for C9: a two-element pattern against a one-element window. -/
theorem insufficient_history_no_match_witness :
    (pyTailSlice [(1, 29)] 2).length < 2 ∧
    fireRule [(1, 29)] ⟨[(1, 29), (0, 29)], [(1, 1), (0, 1)]⟩ = [] :=
  insufficient_history_no_match ⟨[(1, 29), (0, 29)], [(1, 1), (0, 1)]⟩ [(1, 29)]
    (by decide)

/-- C2: with the single rule
`press:leftctrl,release:leftctrl=press:esc,release:esc` (parsed as shown)
and timeout 1000 ms, a leftctrl press at t=0 followed by a release at
t=0.05 emits press(esc) then release(esc) followed by exactly one
synchronization barrier; with the release at t=1.2 instead (gap at least
the timeout), nothing is emitted. -/
theorem ctrl_tap_rule_scenario :
    Rule.from_string "press:leftctrl,release:leftctrl=press:esc,release:esc" =
      .ok ⟨[(1, 29), (0, 29)], [(1, 1), (0, 1)]⟩ ∧
    (run (mkMatcherConfig 1000 [⟨[(1, 29), (0, 29)], [(1, 1), (0, 1)]⟩]) initialState
        [⟨EV_KEY, 29, 1, 0⟩, ⟨EV_KEY, 29, 0, 1/20⟩]).2 =
      [OutEvent.write 1 1, OutEvent.write 1 0, OutEvent.syn] ∧
    (run (mkMatcherConfig 1000 [⟨[(1, 29), (0, 29)], [(1, 1), (0, 1)]⟩]) initialState
        [⟨EV_KEY, 29, 1, 0⟩, ⟨EV_KEY, 29, 0, 6/5⟩]).2 = [] := by
  refine ⟨by decide, ?_, ?_⟩ <;>
    norm_num [run, step, mkMatcherConfig, buildIndex, setdefaultAppend, lookupBucket,
      pushWindow, fireRule, emitRule, pyTailSlice, initialState]

/-- Refutation of C6 as stated: `previous_event_timestamp` starts at 0.0,
so the first event's delta equals its own timestamp, which is not always
at least the timeout.  A first event at t=0.5 with timeout 1000 ms passes
the timeout check and, with the single rule `press:esc=press:a`, even
causes an emission. -/
theorem first_event_can_trigger_evaluation :
    ¬((mkMatcherConfig 1000 [⟨[(1, 1)], [(1, 30)]⟩]).timeout ≤
        (1/2 : ℚ) - initialState.prevTs) ∧
    (step (mkMatcherConfig 1000 [⟨[(1, 1)], [(1, 30)]⟩]) initialState
        ⟨EV_KEY, 1, 1, 1/2⟩).2 = [OutEvent.write 30 1, OutEvent.syn] := by
  constructor
  · norm_num [mkMatcherConfig, initialState]
  · norm_num [run, step, mkMatcherConfig, buildIndex, setdefaultAppend, lookupBucket,
      pushWindow, fireRule, emitRule, pyTailSlice, initialState]

/-- C6 amended: the first event's delta equals its own timestamp (because
`previous_event_timestamp` is initialized to 0.0), so the first event is
skipped by the timeout check exactly for timestamps at least the timeout;
any first event with timestamp ≥ timeout updates the window and triggers
no rule evaluation and no emission. -/
theorem first_event_delta_is_timestamp (cfg : MatcherConfig) (ev : InputEvent)
    (h : cfg.timeout ≤ ev.timestamp) :
    ev.timestamp - initialState.prevTs = ev.timestamp ∧
    step cfg initialState ev =
      (⟨pushWindow cfg.windowSize [] (ev.value, ev.code), ev.timestamp⟩, []) := by
  have hd : ev.timestamp - initialState.prevTs = ev.timestamp := by
    simp [initialState]
  exact ⟨hd, step_of_timeout cfg initialState ev (by rw [hd]; exact h)⟩

/-- Witness for the amended C6: a first event at t=2 with timeout 1 s is
buffered but produces nothing. -/
theorem first_event_delta_is_timestamp_witness :
    (2 : ℚ) - initialState.prevTs = 2 ∧
    step ⟨1, 1, []⟩ initialState ⟨EV_KEY, 29, 1, 2⟩ = (⟨[(1, 29)], 2⟩, []) := by
  have h := first_event_delta_is_timestamp ⟨1, 1, []⟩ ⟨EV_KEY, 29, 1, 2⟩ (by norm_num)
  exact ⟨h.1, h.2.trans rfl⟩

/-! ## Lemmas about the keyboard monitor -/

theorem mem_of_mem_removeFirst {p : String} :
    ∀ {l : List String} {name : String}, p ∈ removeFirst l name → p ∈ l := by
  intro l
  induction l with
  | nil => intro name h; exact absurd h (List.not_mem_nil p)
  | cons q l ih =>
      intro name h
      by_cases hq : q = name
      · rw [removeFirst, if_pos hq] at h
        exact List.mem_cons_of_mem q h
      · rw [removeFirst, if_neg hq] at h
        rcases List.mem_cons.mp h with rfl | h
        · exact List.mem_cons_self p l
        · exact List.mem_cons_of_mem q (ih h)

theorem not_mem_removeFirst_self {l : List String} (h : l.Nodup) (p : String) :
    p ∉ removeFirst l p := by
  induction l with
  | nil => simp [removeFirst]
  | cons q l ih =>
      rw [List.nodup_cons] at h
      by_cases hq : q = p
      · subst hq
        rw [removeFirst, if_pos rfl]
        exact h.1
      · rw [removeFirst, if_neg hq]
        rw [List.mem_cons, not_or]
        exact ⟨fun hh => hq hh.symm, ih h.2⟩

theorem not_mem_add_keyboard {ignored : List String} {openFails : String → Bool}
    {st : MonitorState} {name p : String} (hp : p ∈ ignored)
    (h : p ∉ st.monitored) :
    p ∉ (add_keyboard ignored openFails st name).monitored := by
  unfold add_keyboard
  by_cases h1 : name ∈ ignored
  · rw [if_pos h1]; exact h
  · rw [if_neg h1]
    by_cases h2 : openFails name
    · rw [if_pos h2]; exact h
    · rw [if_neg h2]
      intro hmem
      rcases List.mem_append.mp hmem with hl | hr
      · exact h hl
      · rcases List.mem_singleton.mp hr with rfl
        exact h1 hp

theorem not_mem_handleUdevDevice {ignored : List String}
    {openFails : String → Bool} {st : MonitorState} {d : UdevDevice} {p : String}
    (hp : p ∈ ignored) (h : p ∉ st.monitored) :
    p ∉ (handleUdevDevice ignored openFails st d).monitored := by
  cases hn : udev_keyboard_device_name d with
  | none => simp only [handleUdevDevice, hn]; exact h
  | some name =>
      simp only [handleUdevDevice, hn]
      by_cases ha : d.action = "add"
      · rw [if_pos ha]
        exact not_mem_add_keyboard hp h
      · rw [if_neg ha]
        by_cases hr : d.action = "remove"
        · rw [if_pos hr]
          intro hmem
          exact h (mem_of_mem_removeFirst hmem)
        · rw [if_neg hr]; exact h

theorem not_mem_scanDevice {ignored : List String} {openFails : String → Bool}
    {st : MonitorState} {d : UdevDevice} {p : String} (hp : p ∈ ignored)
    (h : p ∉ st.monitored) :
    p ∉ (scanDevice ignored openFails st d).monitored := by
  unfold scanDevice
  cases hn : udev_keyboard_device_name d with
  | none => exact h
  | some name => exact not_mem_add_keyboard hp h

theorem not_mem_processUdevNotifications {ignored : List String}
    {openFails : String → Bool} {p : String} (hp : p ∈ ignored) :
    ∀ (ds : List UdevDevice) (st : MonitorState), p ∉ st.monitored →
      p ∉ (processUdevNotifications ignored openFails st ds).monitored := by
  intro ds
  induction ds with
  | nil => intro st h; exact h
  | cons d ds ih =>
      intro st h
      exact ih _ (not_mem_handleUdevDevice hp h)

theorem not_mem_add_existing_keyboards {ignored : List String}
    {openFails : String → Bool} {p : String} (hp : p ∈ ignored) :
    ∀ (scan : List UdevDevice) (st : MonitorState), p ∉ st.monitored →
      p ∉ (add_existing_keyboards ignored openFails st scan).monitored := by
  intro scan
  induction scan with
  | nil => intro st h; exact h
  | cons d scan ih =>
      intro st h
      exact ih _ (not_mem_scanDevice hp h)

/-- C4: the virtual output device's own path (passed to the monitor as its
one ignored device) is never in the monitored-device set: not after the
initial scan, and not after any sequence of hotplug add/remove
notifications, including ones referencing that path. -/
theorem uinput_path_never_monitored (uinputPath : String)
    (openFails : String → Bool) (scan notifs : List UdevDevice) :
    uinputPath ∉
      (processUdevNotifications [uinputPath] openFails
        (initKeyboardMonitor [uinputPath] openFails scan) notifs).monitored := by
  apply not_mem_processUdevNotifications (List.mem_singleton_self uinputPath)
  apply not_mem_add_existing_keyboards (List.mem_singleton_self uinputPath)
  exact List.not_mem_nil uinputPath

/-- Refutation of C7 as stated: swallowing a "device gone" (ENODEV) read
failure does not remove the device from the monitored set.  With
`/dev/input/event3` monitored, handling an ENODEV read returns the monitor
state unchanged, the path still monitored. -/
theorem enodev_read_does_not_unregister :
    handleKeyboardReady ⟨["/dev/input/event3"]⟩ [] (some ENODEV) =
      .ok (⟨["/dev/input/event3"]⟩, []) ∧
    "/dev/input/event3" ∈ (MonitorState.mk ["/dev/input/event3"]).monitored :=
  ⟨rfl, List.mem_singleton_self _⟩

/-- C7 amended: an ENODEV read failure is swallowed — the filtered events
read so far are still yielded and the monitored set is unchanged; the
device leaves the monitored set when the watcher's corresponding remove
notification is processed; and the events yielded for any other ready
device do not depend on the monitor state. -/
theorem enodev_swallowed_removal_via_notification (st : MonitorState)
    (path : String) (evs evs' : List InputEvent) (ignored : List String)
    (openFails : String → Bool) (hnd : st.monitored.Nodup) :
    handleKeyboardReady st evs (some ENODEV) = .ok (st, filterKeyEvents evs) ∧
    path ∉ (handleUdevDevice ignored openFails st
        ⟨some "1", some path, "remove"⟩).monitored ∧
    ∀ st' : MonitorState,
      handleKeyboardReady st' evs' none = .ok (st', filterKeyEvents evs') := by
  refine ⟨rfl, ?_, fun st' => rfl⟩
  have hred : handleUdevDevice ignored openFails st ⟨some "1", some path, "remove"⟩ =
      remove_keyboard st path := rfl
  rw [hred]
  exact not_mem_removeFirst_self hnd path

/-- Witness for the amended C7 at a concrete two-device state. -/
theorem enodev_swallowed_removal_via_notification_witness :
    handleKeyboardReady ⟨["/dev/input/event3", "/dev/input/event4"]⟩ []
        (some ENODEV) =
      .ok (⟨["/dev/input/event3", "/dev/input/event4"]⟩, filterKeyEvents []) ∧
    "/dev/input/event3" ∉
      (handleUdevDevice [] (fun _ => false)
        ⟨["/dev/input/event3", "/dev/input/event4"]⟩
        ⟨some "1", some "/dev/input/event3", "remove"⟩).monitored ∧
    ∀ st' : MonitorState,
      handleKeyboardReady st' [] none = .ok (st', filterKeyEvents []) :=
  enodev_swallowed_removal_via_notification
    ⟨["/dev/input/event3", "/dev/input/event4"]⟩ "/dev/input/event3" [] [] []
    (fun _ => false) (by decide)

/-- C8: a read failure is swallowed — the events read so far are still
returned — exactly when its errno is ENODEV; any other read failure
propagates as the error itself. -/
theorem read_failure_swallowed_iff_enodev (evs : List InputEvent) (e : Nat) :
    (read_input_device_events evs (some e) = .ok evs ↔ e = ENODEV) ∧
    (e ≠ ENODEV → read_input_device_events evs (some e) = .error e) := by
  constructor
  · constructor
    · intro h
      by_contra hne
      rw [read_input_device_events, if_neg hne] at h
      exact Except.noConfusion h
    · intro he
      rw [read_input_device_events, if_pos he]
  · intro hne
    rw [read_input_device_events, if_neg hne]

/-- Witness for C8: errno 19 (ENODEV) is swallowed with the events kept;
errno 13 (EACCES) propagates. -/
theorem read_failure_swallowed_iff_enodev_witness :
    read_input_device_events [] (some 19) = .ok [] ∧
    read_input_device_events [] (some 13) = .error 13 :=
  ⟨(read_failure_swallowed_iff_enodev [] 19).1.mpr rfl,
   (read_failure_swallowed_iff_enodev [] 13).2 (by decide)⟩

/-! ## Lemmas about rule parsing -/

theorem lookupAction_isSome_iff (a : String) :
    (ACTION_TO_KEY_EVENT_VALUE.lookup a).isSome = true ↔
      a = "press" ∨ a = "release" := by
  have hl : ACTION_TO_KEY_EVENT_VALUE = [("release", 0), ("press", 1)] := rfl
  rw [hl]
  by_cases h1 : a = "release"
  · subst h1
    simp [List.lookup]
  · by_cases h2 : a = "press"
    · subst h2
      simp [List.lookup]
    · simp [List.lookup, beq_eq_false_iff_ne.mpr h1, beq_eq_false_iff_ne.mpr h2,
        h1, h2]

theorem parseChunk_eq (chunk : String) :
    parseChunk chunk =
      match ACTION_TO_KEY_EVENT_VALUE.lookup (chunkAction chunk) with
      | none => .error (.unknownAction (chunkAction chunk))
      | some value =>
          match getattrEcodes ("KEY_" ++ pyUpper (chunkKey chunk)) with
          | none => .error (.unknownKey (chunkKey chunk))
          | some code => .ok (value, code) := by
  rw [parseChunk, chunkAction, chunkKey]

theorem parseChunk_isOk_iff (chunk : String) :
    exceptIsOk (parseChunk chunk) = true ↔ validChunk chunk := by
  rw [parseChunk_eq]
  cases hl : ACTION_TO_KEY_EVENT_VALUE.lookup (chunkAction chunk) with
  | none =>
      have hact : ¬(chunkAction chunk = "press" ∨ chunkAction chunk = "release") := by
        rw [← lookupAction_isSome_iff, hl]
        simp
      simp [exceptIsOk, validChunk, hact]
  | some value =>
      have hact : chunkAction chunk = "press" ∨ chunkAction chunk = "release" := by
        rw [← lookupAction_isSome_iff, hl]
        rfl
      cases hg : getattrEcodes ("KEY_" ++ pyUpper (chunkKey chunk)) with
      | none => simp [exceptIsOk, validChunk, chunkKeyResolves, hg, hact]
      | some code => simp [exceptIsOk, validChunk, chunkKeyResolves, hg, hact]

theorem parseChunk_error_offends (chunk : String) (e : RuleSyntaxError)
    (h : parseChunk chunk = .error e) :
    (e = .unknownAction (chunkAction chunk) ∧
      ¬(chunkAction chunk = "press" ∨ chunkAction chunk = "release")) ∨
    (e = .unknownKey (chunkKey chunk) ∧
      getattrEcodes ("KEY_" ++ pyUpper (chunkKey chunk)) = none) := by
  rw [parseChunk_eq] at h
  cases hl : ACTION_TO_KEY_EVENT_VALUE.lookup (chunkAction chunk) with
  | none =>
      rw [hl] at h
      have he : RuleSyntaxError.unknownAction (chunkAction chunk) = e :=
        (Except.error.injEq _ _).mp h
      left
      refine ⟨he.symm, ?_⟩
      rw [← lookupAction_isSome_iff, hl]
      simp
  | some value =>
      rw [hl] at h
      cases hg : getattrEcodes ("KEY_" ++ pyUpper (chunkKey chunk)) with
      | none =>
          rw [hg] at h
          right
          exact ⟨((Except.error.injEq _ _).mp h).symm, rfl⟩
      | some code =>
          rw [hg] at h
          exact Except.noConfusion h

theorem parseChunks_isOk_iff (cs : List String) :
    exceptIsOk (parseChunks cs) = true ↔
      ∀ c ∈ cs, exceptIsOk (parseChunk c) = true := by
  induction cs with
  | nil => simp [parseChunks, exceptIsOk]
  | cons c cs ih =>
      constructor
      · intro h
        rw [List.forall_mem_cons]
        cases hc : parseChunk c with
        | error e =>
            rw [parseChunks, hc] at h
            exact absurd h (by simp [exceptIsOk])
        | ok p =>
            cases hr : parseChunks cs with
            | error e =>
                rw [parseChunks, hc, hr] at h
                exact absurd h (by simp [exceptIsOk])
            | ok ps =>
                exact ⟨rfl, ih.mp (by rw [hr]; rfl)⟩
      · intro h
        rw [List.forall_mem_cons] at h
        obtain ⟨h1, h2⟩ := h
        cases hc : parseChunk c with
        | error e =>
            rw [hc] at h1
            exact absurd h1 (by simp [exceptIsOk])
        | ok p =>
            cases hr : parseChunks cs with
            | error e =>
                have hkr := ih.mpr h2
                rw [hr] at hkr
                exact absurd hkr (by simp [exceptIsOk])
            | ok ps =>
                rw [parseChunks, hc, hr]
                rfl

theorem parseChunks_error (cs : List String) (e : RuleSyntaxError)
    (h : parseChunks cs = .error e) : ∃ c ∈ cs, parseChunk c = .error e := by
  induction cs with
  | nil => exact Except.noConfusion h
  | cons c cs ih =>
      cases hc : parseChunk c with
      | error e' =>
          rw [parseChunks, hc] at h
          obtain rfl : e' = e := (Except.error.injEq _ _).mp h
          exact ⟨c, List.mem_cons_self c cs, hc⟩
      | ok p =>
          rw [parseChunks, hc] at h
          cases hr : parseChunks cs with
          | error e' =>
              rw [hr] at h
              obtain rfl : e' = e := (Except.error.injEq _ _).mp h
              obtain ⟨c', hc', he'⟩ := ih hr
              exact ⟨c', List.mem_cons_of_mem c hc', he'⟩
          | ok ps =>
              rw [hr] at h
              exact Except.noConfusion h

theorem from_string_eq (s : String) :
    Rule.from_string s =
      match parseChunks (pySplit (pyPartition s '=').1 ',') with
      | .error e => .error e
      | .ok ps =>
          match parseChunks (pySplit (pyPartition s '=').2 ',') with
          | .error e => .error e
          | .ok acts => .ok ⟨ps, acts⟩ := by
  rcases hp : pyPartition s '=' with ⟨a, b⟩
  simp only [Rule.from_string, Rule.parse_sequence, hp]

theorem from_string_isOk_iff (s : String) :
    exceptIsOk (Rule.from_string s) = true ↔ ∀ c ∈ ruleChunks s, validChunk c := by
  have hrc : ruleChunks s =
      pySplit (pyPartition s '=').1 ',' ++ pySplit (pyPartition s '=').2 ',' := rfl
  rw [from_string_eq, hrc]
  constructor
  · intro h c hc
    cases h1 : parseChunks (pySplit (pyPartition s '=').1 ',') with
    | error e => rw [h1] at h; exact absurd h (by simp [exceptIsOk])
    | ok ps =>
        cases h2 : parseChunks (pySplit (pyPartition s '=').2 ',') with
        | error e => rw [h1, h2] at h; exact absurd h (by simp [exceptIsOk])
        | ok acts =>
            rcases List.mem_append.mp hc with hm | hm
            · exact (parseChunk_isOk_iff c).mp
                (((parseChunks_isOk_iff _).mp (by rw [h1]; rfl)) c hm)
            · exact (parseChunk_isOk_iff c).mp
                (((parseChunks_isOk_iff _).mp (by rw [h2]; rfl)) c hm)
  · intro hall
    have h1 : exceptIsOk (parseChunks (pySplit (pyPartition s '=').1 ',')) = true :=
      (parseChunks_isOk_iff _).mpr fun c hc =>
        (parseChunk_isOk_iff c).mpr (hall c (List.mem_append_left _ hc))
    have h2 : exceptIsOk (parseChunks (pySplit (pyPartition s '=').2 ',')) = true :=
      (parseChunks_isOk_iff _).mpr fun c hc =>
        (parseChunk_isOk_iff c).mpr (hall c (List.mem_append_right _ hc))
    cases hc1 : parseChunks (pySplit (pyPartition s '=').1 ',') with
    | error e => rw [hc1] at h1; exact absurd h1 (by simp [exceptIsOk])
    | ok ps =>
        cases hc2 : parseChunks (pySplit (pyPartition s '=').2 ',') with
        | error e => rw [hc2] at h2; exact absurd h2 (by simp [exceptIsOk])
        | ok acts => rfl

theorem from_string_error_offends (s : String) (e : RuleSyntaxError)
    (h : Rule.from_string s = .error e) :
    ∃ c ∈ ruleChunks s,
      (e = .unknownAction (chunkAction c) ∧
        ¬(chunkAction c = "press" ∨ chunkAction c = "release")) ∨
      (e = .unknownKey (chunkKey c) ∧
        getattrEcodes ("KEY_" ++ pyUpper (chunkKey c)) = none) := by
  rw [from_string_eq] at h
  cases h1 : parseChunks (pySplit (pyPartition s '=').1 ',') with
  | error e' =>
      rw [h1] at h
      obtain rfl : e' = e := (Except.error.injEq _ _).mp h
      obtain ⟨c, hc, he⟩ := parseChunks_error _ _ h1
      exact ⟨c, List.mem_append_left _ hc, parseChunk_error_offends c _ he⟩
  | ok ps =>
      rw [h1] at h
      cases h2 : parseChunks (pySplit (pyPartition s '=').2 ',') with
      | error e' =>
          rw [h2] at h
          obtain rfl : e' = e := (Except.error.injEq _ _).mp h
          obtain ⟨c, hc, he⟩ := parseChunks_error _ _ h2
          exact ⟨c, List.mem_append_right _ hc, parseChunk_error_offends c _ he⟩
      | ok acts =>
          rw [h2] at h
          exact Except.noConfusion h

/-- C5: parsing a rule string produces a Rule exactly when every
comma-separated `action:key` token has an action in `{press, release}`
and a key resolving to a known key code; when it fails, the raised error
names the offending token (the unknown action text or the unresolvable
key text of some chunk). -/
theorem from_string_produces_rule_or_names_offender (s : String) :
    (exceptIsOk (Rule.from_string s) = true ↔ ∀ c ∈ ruleChunks s, validChunk c) ∧
    ∀ e, Rule.from_string s = .error e → ∃ c ∈ ruleChunks s,
      (e = .unknownAction (chunkAction c) ∧
        ¬(chunkAction c = "press" ∨ chunkAction c = "release")) ∨
      (e = .unknownKey (chunkKey c) ∧
        getattrEcodes ("KEY_" ++ pyUpper (chunkKey c)) = none) :=
  ⟨from_string_isOk_iff s, from_string_error_offends s⟩

/-- Witness for C5: the default capslock rule parses (all its chunks are
valid), and a rule with a bad action token fails naming that token. -/
theorem from_string_produces_rule_or_names_offender_witness :
    exceptIsOk
      (Rule.from_string "press:capslock,release:capslock=press:esc,release:esc") =
      true ∧
    ∃ c ∈ ruleChunks "tap:capslock=press:esc",
      (RuleSyntaxError.unknownAction "tap" = .unknownAction (chunkAction c) ∧
        ¬(chunkAction c = "press" ∨ chunkAction c = "release")) ∨
      (RuleSyntaxError.unknownAction "tap" = .unknownKey (chunkKey c) ∧
        getattrEcodes ("KEY_" ++ pyUpper (chunkKey c)) = none) :=
  ⟨(from_string_produces_rule_or_names_offender _).1.mpr (by decide),
   (from_string_produces_rule_or_names_offender "tap:capslock=press:esc").2
     (.unknownAction "tap") (by decide)⟩

theorem chunkKeyEquiv_parts {c d : String} (h : chunkKeyEquiv c d = true) :
    chunkAction c = chunkAction d ∧ pyUpper (chunkKey c) = pyUpper (chunkKey d) := by
  rw [chunkKeyEquiv, Bool.and_eq_true] at h
  exact ⟨eq_of_beq h.1, eq_of_beq h.2⟩

theorem parseChunk_congr_ok {c d : String} (h : chunkKeyEquiv c d = true)
    {p : Nat × Nat} (hc : parseChunk c = .ok p) : parseChunk d = .ok p := by
  obtain ⟨ha, hk⟩ := chunkKeyEquiv_parts h
  rw [parseChunk_eq] at hc ⊢
  rw [← ha, ← hk]
  cases hl : ACTION_TO_KEY_EVENT_VALUE.lookup (chunkAction c) with
  | none =>
      rw [hl] at hc
      exact Except.noConfusion hc
  | some value =>
      rw [hl] at hc
      cases hg : getattrEcodes ("KEY_" ++ pyUpper (chunkKey c)) with
      | none =>
          rw [hg] at hc
          exact Except.noConfusion hc
      | some code =>
          rw [hg] at hc
          exact hc

theorem parseChunks_congr_ok : ∀ {cs ds : List String},
    seqKeyEquiv cs ds = true →
    ∀ {l : List (Nat × Nat)}, parseChunks cs = .ok l → parseChunks ds = .ok l := by
  intro cs
  induction cs with
  | nil =>
      intro ds h l hl
      cases ds with
      | nil => exact hl
      | cons d ds => exact absurd h (by simp [seqKeyEquiv])
  | cons c cs ih =>
      intro ds h l hl
      cases ds with
      | nil => exact absurd h (by simp [seqKeyEquiv])
      | cons d ds =>
          rw [seqKeyEquiv, Bool.and_eq_true] at h
          obtain ⟨h1, h2⟩ := h
          cases hc : parseChunk c with
          | error e =>
              rw [parseChunks, hc] at hl
              exact Except.noConfusion hl
          | ok p =>
              rw [parseChunks, hc] at hl
              cases hr : parseChunks cs with
              | error e =>
                  rw [hr] at hl
                  exact Except.noConfusion hl
              | ok ps =>
                  rw [hr] at hl
                  rw [parseChunks, parseChunk_congr_ok h1 hc, ih h2 hr]
                  exact hl

theorem from_string_congr {s t : String} (heq : ruleKeyEquiv s t) {r : Rule}
    (h : Rule.from_string s = .ok r) : Rule.from_string t = .ok r := by
  obtain ⟨h1, h2⟩ := heq
  rw [from_string_eq] at h ⊢
  cases hc1 : parseChunks (pySplit (pyPartition s '=').1 ',') with
  | error e =>
      rw [hc1] at h
      exact Except.noConfusion h
  | ok ps =>
      rw [hc1] at h
      cases hc2 : parseChunks (pySplit (pyPartition s '=').2 ',') with
      | error e =>
          rw [hc2] at h
          exact Except.noConfusion h
      | ok acts =>
          rw [hc2] at h
          rw [parseChunks_congr_ok h1 hc1, parseChunks_congr_ok h2 hc2]
          exact h

/-- C10: key names are resolved case-insensitively (the key text is
uppercased before the `KEY_*` table lookup), so two rule strings that
agree except in the letter case of their key names parse to the same
Rule whenever one parses; action names are matched case-sensitively: any
chunk whose action text is not exactly the lowercase `"press"` or
`"release"` makes parsing fail. -/
theorem key_case_insensitive_action_case_sensitive :
    (∀ s t : String, ruleKeyEquiv s t → ∀ r : Rule,
      Rule.from_string s = .ok r → Rule.from_string t = .ok r) ∧
    (∀ s : String, ∀ c ∈ ruleChunks s, chunkAction c ≠ "press" →
      chunkAction c ≠ "release" → exceptIsOk (Rule.from_string s) = false) := by
  constructor
  · intro s t heq r h
    exact from_string_congr heq h
  · intro s c hc hp hr
    cases hok : exceptIsOk (Rule.from_string s) with
    | false => rfl
    | true =>
        rcases ((from_string_isOk_iff s).mp hok c hc).1 with h | h
        · exact absurd h hp
        · exact absurd h hr

/-- Witness for C10: `press:ESC` parses to the same rule as `press:esc`,
while the uppercased action `PRESS` fails to parse. -/
theorem key_case_insensitive_action_case_sensitive_witness :
    Rule.from_string "press:ESC=press:a" = .ok ⟨[(1, 1)], [(1, 30)]⟩ ∧
    exceptIsOk (Rule.from_string "PRESS:esc=press:esc") = false :=
  ⟨key_case_insensitive_action_case_sensitive.1 "press:esc=press:a"
      "press:ESC=press:a" (by decide) ⟨[(1, 1)], [(1, 30)]⟩ (by decide),
   key_case_insensitive_action_case_sensitive.2 "PRESS:esc=press:esc"
      "PRESS:esc" (by decide) (by decide) (by decide)⟩

end Evcape
